import Mathlib

/-!
Verification development for the Auto-Upload-Meta repository: a pipeline that
moves mobile advertising identifiers (MAIDs) from a Snowflake warehouse into
Meta custom audiences.  The Python sources are shallowly embedded: pure
functions become Lean functions, external effects (HTTP requests, warehouse
queries, the file system, the environment) are injected as explicit oracle
parameters, Python exceptions become `Except`, and CPython attribute lookup on
the `Config` class is modelled as a partial map whose misses are
`AttributeError`s.  All machine arithmetic in the sources is unbounded Python
integer arithmetic, so `Nat`/`Int` model it exactly.
-/

namespace AutoUploadMeta

/-- Python exceptions that the embedded code can raise.  Only the distinctions
the control flow inspects are kept: an `AttributeError` carries the missing
attribute name, every other exception carries its message. -/
inductive PyError where
  | attributeError (attr : String)
  | valueError (msg : String)
  deriving DecidableEq

/-- Process environment (`os.getenv`), modelled as an association list of
environment variables. -/
structure Env where
  vars : List (String × String)
  deriving DecidableEq

/-- Embedding of `os.getenv(key)`: `none` models Python `None`. -/
def getenv (e : Env) (key : String) : Option String :=
  e.vars.lookup key

/-! ## config.py — the `Config` class

`Config` is a plain class whose attributes are evaluated at import time.
Each class attribute becomes a definition; the attributes read from the
environment take the `Env` explicitly. -/

namespace Config

/-- config.py line 18: `META_ACCESS_TOKEN = os.getenv('META_ACCESS_TOKEN')`. -/
def META_ACCESS_TOKEN (e : Env) : Option String := getenv e "META_ACCESS_TOKEN"

/-- config.py line 19: `META_AD_ACCOUNT_ID = os.getenv('META_AD_ACCOUNT_ID')`. -/
def META_AD_ACCOUNT_ID (e : Env) : Option String := getenv e "META_AD_ACCOUNT_ID"

/-- config.py line 20: `META_API_VERSION = 'v21.0'`. -/
def META_API_VERSION : String := "v21.0"

/-- config.py line 21: `META_API_BASE_URL = f'https://graph.facebook.com/{META_API_VERSION}'`. -/
def META_API_BASE_URL : String := "https://graph.facebook.com/" ++ META_API_VERSION

/-- config.py line 36. -/
def DEFAULT_BATCH_SIZE : Nat := 50000

/-- config.py line 37. -/
def MAX_BATCH_SIZE : Nat := 500000

/-- config.py line 40. -/
def API_CALLS_PER_HOUR : Nat := 200

/-- config.py line 41. -/
def MAX_RETRIES : Nat := 3

/-- config.py line 42. -/
def RETRY_DELAY : Nat := 5

/-- CPython attribute lookup for the string-valued attributes of the `Config`
class.  A name that is not defined in config.py raises `AttributeError` —
in particular `META_BASE_URL` (config.py defines `META_API_BASE_URL` only). -/
def getStrAttr (e : Env) (name : String) : Except PyError (Option String) :=
  if name = "META_ACCESS_TOKEN" then .ok (META_ACCESS_TOKEN e)
  else if name = "META_AD_ACCOUNT_ID" then .ok (META_AD_ACCOUNT_ID e)
  else if name = "META_API_VERSION" then .ok (some META_API_VERSION)
  else if name = "META_API_BASE_URL" then .ok (some META_API_BASE_URL)
  else if name = "SNOWFLAKE_ACCOUNT" then .ok (getenv e "SNOWFLAKE_ACCOUNT")
  else if name = "SNOWFLAKE_USER" then .ok (getenv e "SNOWFLAKE_USER")
  else if name = "SNOWFLAKE_PASSWORD" then .ok (getenv e "SNOWFLAKE_PASSWORD")
  else if name = "SNOWFLAKE_PAT_TOKEN" then .ok (getenv e "SNOWFLAKE_PAT_TOKEN")
  else .error (.attributeError name)

/-- CPython attribute lookup for the integer-valued attributes of the `Config`
class.  `BATCH_SIZE` is not among them: config.py defines `DEFAULT_BATCH_SIZE`
and `MAX_BATCH_SIZE`, never `BATCH_SIZE`, and no module assigns it. -/
def getNatAttr (name : String) : Except PyError Nat :=
  if name = "DEFAULT_BATCH_SIZE" then .ok DEFAULT_BATCH_SIZE
  else if name = "MAX_BATCH_SIZE" then .ok MAX_BATCH_SIZE
  else if name = "API_CALLS_PER_HOUR" then .ok API_CALLS_PER_HOUR
  else if name = "MAX_RETRIES" then .ok MAX_RETRIES
  else if name = "RETRY_DELAY" then .ok RETRY_DELAY
  else .error (.attributeError name)

end Config

/-! ## Python string primitives

The embeddings work on `String.data` (the list of characters) so that every
operation is structurally computable.  Python strings are sequences of code
points, exactly `List Char`. -/

/-- Scanner for `str.replace`: at each position, if the (non-empty) pattern
`p :: ps` matches, emit the replacement and skip past the match; otherwise
emit one character and continue.  This is Python's left-to-right,
non-overlapping replace-all.  The recursion is structural on a fuel argument
so the definition reduces inside the kernel; every step consumes at least one
character, so fuel equal to the list length gives the untruncated scan. -/
def replaceList (p : Char) (ps rep : List Char) : Nat → List Char → List Char
  | 0, l => l
  | _, [] => []
  | fuel + 1, c :: cs =>
    if (p :: ps).isPrefixOf (c :: cs) then
      rep ++ replaceList p ps rep fuel (cs.drop ps.length)
    else c :: replaceList p ps rep fuel cs

/-- Embedding of `str.replace(pat, rep)` (all occurrences).  The sources never
call it with an empty pattern, so that Python edge case is mapped to the
identity. -/
def pyReplace (s pat rep : String) : String :=
  match pat.data with
  | [] => s
  | p :: ps => String.mk (replaceList p ps rep.data s.data.length s.data)

/-- Scanner for Python's `pat in s` substring test (non-empty pattern). -/
def hasSubList (p : Char) (ps : List Char) : List Char → Bool
  | [] => false
  | c :: cs => (p :: ps).isPrefixOf (c :: cs) || hasSubList p ps cs

/-- Embedding of Python's `pat in s` for strings. -/
def pyContains (s pat : String) : Bool :=
  match pat.data with
  | [] => true
  | p :: ps => hasSubList p ps s.data

/-- Embedding of Python slicing `s[:n]` for `n ≥ 0` (characters). -/
def pyTake (s : String) (n : Nat) : String :=
  String.mk (s.data.take n)

/-- Embedding of `str.strip()` with no argument (strip ASCII whitespace from
both ends; the form-feed/vertical-tab edge cases never occur in the data). -/
def pyStrip (s : String) : String :=
  String.mk (((s.data.dropWhile Char.isWhitespace).reverse.dropWhile Char.isWhitespace).reverse)

/-- Embedding of `str.rstrip()`. -/
def pyRstrip (s : String) : String :=
  String.mk ((s.data.reverse.dropWhile Char.isWhitespace).reverse)

/-- Embedding of `str.lower()` (the identifiers and e-mails in play are
ASCII, where `Char.toLower` agrees with Python). -/
def pyLower (s : String) : String :=
  String.mk (s.data.map Char.toLower)

/-- Embedding of `str.startswith(p)`. -/
def pyStartsWith (s p : String) : Bool :=
  p.data.isPrefixOf s.data

/-! ## meta_api_client.py — `MetaAPIClient.__init__` -/

/-- Python `x or y` on optional strings: `None` and the empty string are
falsy, so they fall through to the right operand. -/
def truthyOr (a b : Option String) : Option String :=
  match a with
  | some s => if s = "" then b else some s
  | none => b

/-- The successfully-constructed client state (never actually reachable for
the base `MetaAPIClient`, see `MetaAPIClient.init`). -/
structure Client where
  access_token : Option String
  ad_account_id : String
  base_url : String
  deriving DecidableEq

/-- Embedding of `MetaAPIClient.__init__` (meta_api_client.py lines 20-46).
Order of operations follows the source: resolve the token, resolve the ad
account id, `ValueError` when the latter is falsy, prepend `act_`, then read
`Config.META_BASE_URL` — an attribute the `Config` class does not define. -/
def MetaAPIClient.init (e : Env) (access_token ad_account_id : Option String) :
    Except PyError Client := do
  let tok := truthyOr access_token (Config.META_ACCESS_TOKEN e)
  let acct := truthyOr ad_account_id (Config.META_AD_ACCOUNT_ID e)
  match acct with
  | none => throw (.valueError "Ad Account ID is required. Please set META_AD_ACCOUNT_ID in your environment.")
  | some a =>
    if a = "" then
      throw (.valueError "Ad Account ID is required. Please set META_AD_ACCOUNT_ID in your environment.")
    else
      let a := if pyStartsWith a "act_" then a else "act_" ++ a
      let base ← Config.getStrAttr e "META_BASE_URL"
      pure { access_token := tok, ad_account_id := a, base_url := base.getD "" }

/-! ## Audience-name derivation (three near-duplicate implementations) -/

namespace BatchUploadFromCsv

/-- Embedding of `create_audience_name` (batch_upload_from_csv.py lines 50-70).
`''.join(c if c.isalnum() or c in ' -' else '' for c in app_name)` is a
character filter; `str.replace` on single-character patterns is kept as
`String.replace`.  The truncation branch uses `String.take`; Python would
slice with a possibly negative bound there, but for the inputs of interest
(name well under 200 characters) the branch is not taken. -/
def create_audience_name (app_name os_type : String) : String :=
  let clean_name := String.mk (app_name.data.filter (fun c => c.isAlphanum || c = ' ' || c = '-'))
  let clean_name := pyReplace (pyReplace clean_name " " "_") "-" "_"
  let clean_os := pyReplace (pyReplace os_type " " "") "-" "_"
  let audience_name := "US_" ++ clean_os ++ "_" ++ clean_name ++ "_PIE"
  if 200 < audience_name.data.length then
    let max_app_length := 200 - ("US_" ++ clean_os ++ "__PIE").data.length
    "US_" ++ clean_os ++ "_" ++ pyTake clean_name max_app_length ++ "_PIE"
  else audience_name

end BatchUploadFromCsv

namespace UploadSkippedOptimized

/-- Embedding of `create_audience_name` (upload_skipped_optimized.py lines
42-53): replace space and dash with underscore, drop colons, then keep only
alphanumerics and underscores, truncate, and wrap in `US_{os}_..._PIE`. -/
def create_audience_name (app_name os : String) : String :=
  let clean_name := pyReplace (pyReplace (pyReplace app_name " " "_") "-" "_") ":" ""
  let clean_name := String.mk (clean_name.data.filter (fun c => c.isAlphanum || c = '_'))
  let max_length := 200 - ("US__PIE").data.length - os.data.length
  let clean_name := if max_length < clean_name.data.length then pyTake clean_name max_length
    else clean_name
  "US_" ++ os ++ "_" ++ clean_name ++ "_PIE"

end UploadSkippedOptimized

namespace OptimizedEtlPipeline

/-- The `while '  ' in clean_name:` loop of `create_correct_audience_name`,
embedded with explicit fuel: every iteration strictly shortens the string, so
fuel equal to the string length makes the embedding agree with the
(terminating) Python loop. -/
def collapseDoubleSpaces : Nat → String → String
  | 0, s => s
  | fuel + 1, s =>
    if pyContains s "  " then collapseDoubleSpaces fuel (pyReplace s "  " " ")
    else s

/-- Embedding of `create_correct_audience_name` (optimized_etl_pipeline.py
lines 31-56).  Note the docstring of the source: it deliberately *preserves
spaces* in the app name and only strips problematic characters. -/
def create_correct_audience_name (app_name os : String) : String :=
  let clean_name := pyReplace (pyReplace (pyReplace (pyReplace app_name ":" "") "-" "") "™" "") "®" ""
  let clean_name := pyReplace (pyReplace (pyReplace clean_name "!" "") "&" "and") "+" "plus"
  let clean_name := pyReplace (pyReplace clean_name "/" " ") "\\" " "
  let clean_name := pyReplace clean_name "–" " "
  let clean_name := pyReplace clean_name "—" " "
  let clean_name := collapseDoubleSpaces clean_name.data.length clean_name
  let clean_name := pyStrip clean_name
  let max_length := 200 - ("US__PIE").data.length - os.data.length
  let clean_name := if max_length < clean_name.data.length then pyRstrip (pyTake clean_name max_length)
    else clean_name
  "US_" ++ os ++ "_" ++ clean_name ++ "_PIE"

end OptimizedEtlPipeline

/-! ## audience_uploader.py — checkpoint loading -/

/-- The JSON value found in `upload_progress.json` when it parses: either a
dict whose optional `completed` key holds a list of audience names, or some
other JSON value (on which `data.get` raises `AttributeError`). -/
inductive JsonVal where
  | dictWith (completed : Option (List String))
  | nonDict
  deriving DecidableEq

/-- Observable states of the checkpoint file on disk. -/
inductive CheckpointFile where
  | missing
  | unreadable
  | notJson
  | jsonOf (j : JsonVal)
  deriving DecidableEq

/-- Embedding of `self.progress_file.exists()`. -/
def CheckpointFile.exists : CheckpointFile → Bool
  | .missing => false
  | _ => true

/-- The `try` body of `load_progress` (audience_uploader.py lines 59-62):
open the file, `json.load` it, and take `set(data.get('completed', []))`.
Each failure mode surfaces as the exception the corresponding Python
operation raises. -/
def tryLoadCompleted : CheckpointFile → Except PyError (List String)
  | .missing => .error (.valueError "FileNotFoundError")
  | .unreadable => .error (.valueError "OSError: could not read file")
  | .notJson => .error (.valueError "json.decoder.JSONDecodeError")
  | .jsonOf .nonDict => .error (.attributeError "get")
  | .jsonOf (.dictWith c) => .ok (c.getD [])

/-- Embedding of `AudienceUploadManager.load_progress` (audience_uploader.py
lines 51-65).  The returned pair is (completed set as a list, whether
`logger.warning` fired).  When the file does not exist the `if` guard is
false and the function silently falls through to `return set()`. -/
def load_progress (f : CheckpointFile) : List String × Bool :=
  if f.exists then
    match tryLoadCompleted f with
    | .ok s => (s, false)
    | .error _ => ([], true)
  else ([], false)

/-! ## Batch chunking

`for i in range(0, len(l), bs): l[i:i+bs]`, the slicing loop both clients use.
Structural on a fuel argument (one chunk consumes at least one element when
`bs ≥ 1`, so fuel `l.length` is enough; Python raises on `bs = 0`, which the
sources never do). -/

/-- Fueled worker for `chunksOf`. -/
def chunksGo (bs : Nat) : Nat → List α → List (List α)
  | _, [] => []
  | 0, _ :: _ => []
  | fuel + 1, x :: xs => ((x :: xs).take bs) :: chunksGo bs fuel (xs.drop (bs - 1))

/-- The list `[l[0:bs], l[bs:2*bs], ...]` of successive slices. -/
def chunksOf (bs : Nat) (l : List α) : List (List α) :=
  chunksGo bs l.length l

/-! ## meta_api_client.py — user hashing and uploads -/

/-- A Python user dict: keys to string values (e.g. `{'madid': 'abc'}`). -/
abbrev User := List (String × String)

/-- Embedding of `user.get(key, '')`. -/
def getDefault (user : User) (key : String) : String :=
  (user.lookup key).getD ""

/-- Embedding of `MetaAPIClient.hash_user_data` (meta_api_client.py lines
128-141, duplicated at meta_api_client_optimized.py lines 355-358): normalize
by lowercasing and stripping whitespace, then hash.  `hashlib.sha256(...)`
is an external primitive; it enters the embedding as the function parameter
`sha`, applied exactly where the source applies it. -/
def hash_user_data (sha : String → String) (data : String) : String :=
  sha (pyStrip (pyLower data))

/-- The per-user inner loop of `add_users_to_audience` (meta_api_client.py
lines 179-187, duplicated at meta_api_client_optimized.py lines 323-331):
look each schema field up in the user dict (defaulting to `''`), and hash
every truthy value unless the data is pre-hashed or the field is `MADID`. -/
def processUser (sha : String → String) (schema : List String) (is_hashed : Bool)
    (user : User) : List String :=
  schema.map (fun field =>
    let value := getDefault user (pyLower field)
    if value ≠ "" ∧ is_hashed = false ∧ field ≠ "MADID" then hash_user_data sha value
    else value)

/-- Schema defaulting (meta_api_client.py lines 160-165, duplicated at
meta_api_client_optimized.py lines 301-305): `['MADID']` when the first user
dict has a `madid` key, else `['EMAIL']`. -/
def defaultSchema (users : List User) (schema : Option (List String)) : List String :=
  match schema with
  | some s => s
  | none =>
    match users with
    | [] => ["EMAIL"]
    | u :: _ => if (u.lookup "madid").isSome then ["MADID"] else ["EMAIL"]

/-- One POST to `{audience_id}/users` as the client assembles it: the
endpoint, the payload schema, the payload data rows, and the `is_raw` flag
(present only on the first batch). -/
structure Request where
  endpoint : String
  schema : List String
  data : List (List String)
  is_raw : Option Bool
  deriving DecidableEq

/-- The upload loop shared by `add_users_to_audience` and
`add_users_to_audience_batch`: for each chunk, build the payload and call
`_make_request`; a raised request exception propagates.  `_make_request` is
injected as `oracle` (its own retry internals are `make_request` below);
the response body is returned by the real code but never read, which the
oracle's unconstrained value models. -/
def runUploadChunks (oracle : Nat → Except PyError String) (mk : Nat → List User → Request) :
    Nat → List (List User) → Except PyError (List Request)
  | _, [] => .ok []
  | i, c :: cs =>
    match oracle i with
    | .error e => .error e
    | .ok _ =>
      match runUploadChunks oracle mk (i + 1) cs with
      | .error e => .error e
      | .ok rest => .ok (mk i c :: rest)

/-- The dictionary `add_users_to_audience` returns on success. -/
structure UploadResult where
  users_uploaded : Nat
  audience_id : String
  deriving DecidableEq

/-- Embedding of `MetaAPIClient.add_users_to_audience` (meta_api_client.py
lines 143-213).  Line 168 is `batch_size = Config.BATCH_SIZE`; the `Config`
class defines `DEFAULT_BATCH_SIZE` and `MAX_BATCH_SIZE` but no `BATCH_SIZE`,
so this lookup raises `AttributeError` before any payload is assembled.
On (hypothetical) success the return value is
`{"users_uploaded": total_users, "audience_id": audience_id}` with
`total_users = len(users)`; the per-request responses are never consulted. -/
def add_users_to_audience (sha : String → String) (oracle : Nat → Except PyError String)
    (audience_id : String) (users : List User) (schema : Option (List String))
    (is_hashed : Bool) : Except PyError (UploadResult × List Request) :=
  let endpoint := audience_id ++ "/users"
  let schema := defaultSchema users schema
  match Config.getNatAttr "BATCH_SIZE" with
  | .error e => .error e
  | .ok batch_size =>
    let mk := fun i c =>
      { endpoint, schema, data := c.map (processUser sha schema is_hashed),
        is_raw := if i = 0 then some (is_hashed = false : Bool) else none }
    match runUploadChunks oracle mk 0 (chunksOf batch_size users) with
    | .error e => .error e
    | .ok trace => .ok ({ users_uploaded := users.length, audience_id }, trace)

/-- Embedding of `OptimizedMetaAPIClient.add_users_to_audience_batch`
(meta_api_client_optimized.py lines 282-353).  Identical to the base upload
loop except that the batch size is the `optimized_batch_size` parameter
(no broken `Config` lookup) and there is no inter-batch delay.  The returned
`users_uploaded` is again `total_users = len(users)`, independent of every
response body. -/
def add_users_to_audience_batch (sha : String → String) (oracle : Nat → Except PyError String)
    (audience_id : String) (users : List User) (schema : Option (List String))
    (is_hashed : Bool) (optimized_batch_size : Nat) :
    Except PyError (UploadResult × List Request) :=
  let endpoint := audience_id ++ "/users"
  let schema := defaultSchema users schema
  let batch_size := optimized_batch_size
  let mk := fun i c =>
    { endpoint, schema, data := c.map (processUser sha schema is_hashed),
      is_raw := if i = 0 then some (is_hashed = false : Bool) else none }
  match runUploadChunks oracle mk 0 (chunksOf batch_size users) with
  | .error e => .error e
  | .ok trace => .ok ({ users_uploaded := users.length, audience_id }, trace)

/-! ## `_make_request` — retry loop

The loop body of `_make_request` (meta_api_client.py lines 71-99, duplicated
at meta_api_client_optimized.py lines 76-121), with the outcome of each HTTP
attempt injected: a response (status, optional `Retry-After` header, body) or
a connection failure.  On 429 the loop sleeps the `Retry-After` hint (default
`Config.RETRY_DELAY`) and continues; any other `requests` exception —
`raise_for_status` on a 4xx/5xx, or a connection failure — sleeps
`Config.RETRY_DELAY * (attempt + 1)` and retries, re-raising on the last
attempt.  A loop that ends by 429-continuing on the last attempt falls off
the `for` and returns Python `None`, modelled as `.ok none`. -/

/-- Outcome of one physical HTTP attempt. -/
inductive AttemptOutcome where
  | httpResp (status : Nat) (retry_after : Option Nat) (body : String)
  | connFail
  deriving DecidableEq

/-- Decidable equality for `Except`, needed to `decide` facts about raised
versus returned results. -/
instance {ε α : Type} [DecidableEq ε] [DecidableEq α] : DecidableEq (Except ε α)
  | .ok x, .ok y => if h : x = y then .isTrue (by rw [h]) else .isFalse (by simp [h])
  | .ok _, .error _ => .isFalse (by simp)
  | .error _, .ok _ => .isFalse (by simp)
  | .error e, .error f => if h : e = f then .isTrue (by rw [h]) else .isFalse (by simp [h])

/-- What a `_make_request` call did: its returned/raised result and the
sequence of `time.sleep` durations it performed. -/
structure MkResult where
  result : Except PyError (Option String)
  sleeps : List Nat
  deriving DecidableEq

/-- The `for attempt in range(Config.MAX_RETRIES)` loop of `_make_request`. -/
def make_request_go (oracle : Nat → AttemptOutcome) : List Nat → List Nat → MkResult
  | [], sleeps => ⟨.ok none, sleeps⟩
  | a :: rest, sleeps =>
    match oracle a with
    | .httpResp status ra body =>
      if status = 429 then
        make_request_go oracle rest (sleeps ++ [ra.getD Config.RETRY_DELAY])
      else if 400 ≤ status then
        if rest.isEmpty then ⟨.error (.valueError "requests.exceptions.HTTPError"), sleeps⟩
        else make_request_go oracle rest (sleeps ++ [Config.RETRY_DELAY * (a + 1)])
      else ⟨.ok (some body), sleeps⟩
    | .connFail =>
      if rest.isEmpty then ⟨.error (.valueError "requests.exceptions.ConnectionError"), sleeps⟩
      else make_request_go oracle rest (sleeps ++ [Config.RETRY_DELAY * (a + 1)])

/-- Embedding of `_make_request`'s retry behaviour. -/
def make_request (oracle : Nat → AttemptOutcome) : MkResult :=
  make_request_go oracle (List.range Config.MAX_RETRIES) []

/-! ## Rate limiting — `@sleep_and_retry @limits(calls=..., period=3600)`

`_make_request` is wrapped (meta_api_client.py lines 48-49) in the external
`ratelimit` package's decorators.  Modelled from that package's documented
semantics: `limits` keeps `(last_reset, num_calls)`, resets the window once
`period` has elapsed, counts the call, and raises `RateLimitException`
carrying the remaining window time when the count exceeds the ceiling;
`sleep_and_retry` catches the exception, sleeps exactly that remaining time,
and retries forever.  The window is therefore *fixed* (anchored at decorator
creation / last reset), not rolling.  Time is an explicit natural-number
clock; sleeping advances it. -/

/-- The decorator state: start of the current window and calls counted in it. -/
structure RLState where
  last_reset : Nat
  num_calls : Nat
  deriving DecidableEq

/-- One pass through the `limits` wrapper at clock time `t`: the updated
state, plus `some period_remaining` when `RateLimitException` is raised. -/
def limits_call (calls period : Nat) (t : Nat) (s : RLState) : RLState × Option Int :=
  let pr : Int := (period : Int) - ((t : Int) - (s.last_reset : Int))
  let s1 := if pr ≤ 0 then { last_reset := t, num_calls := 0 } else s
  let s2 : RLState := { s1 with num_calls := s1.num_calls + 1 }
  if calls < s2.num_calls then (s2, some pr) else (s2, none)

/-- The `sleep_and_retry` wrapper: loop until the wrapped call is admitted,
sleeping `period_remaining` after each `RateLimitException`.  The Python loop
is unbounded; the embedding carries fuel, and `sleep_and_retry_two_suffices`
below shows fuel 2 already always admits the call, so the fueled and the
unbounded loop agree.  Returns the admission time and the new state. -/
def sleep_and_retry_call (calls period : Nat) : Nat → Nat → RLState → Option (Nat × RLState)
  | 0, _, _ => none
  | fuel + 1, t, s =>
    match limits_call calls period t s with
    | (s', none) => some (t, s')
    | (s', some pr) => sleep_and_retry_call calls period fuel (t + pr.toNat) s'

/-- Drive a sequence of rate-limited calls arriving at the given times (the
process is single-threaded, so a call blocked in `sleep_and_retry` delays all
later calls).  Returns each call's admission time, `none` if the bounded
retry fuel ran out. -/
def run_burst (calls period : Nat) (arrivals : List Nat) : List (Option Nat) :=
  (arrivals.foldl
    (fun (acc : Nat × RLState × List (Option Nat)) a =>
      let t0 := max acc.1 a
      match sleep_and_retry_call calls period 2 t0 acc.2.1 with
      | some (ta, s') => (ta, s', acc.2.2 ++ [some ta])
      | none => (t0, acc.2.1, acc.2.2 ++ [none]))
    (0, ⟨0, 0⟩, [])).2.2

/-- Number of admitted calls in the rolling hour `(t - period, t]`: what a
genuinely rolling-window limiter would consult before admitting a call at
time `t`. -/
def rollingCount (period : Nat) (admits : List (Option Nat)) (t : Nat) : Nat :=
  admits.countP (fun x =>
    match x with
    | some u => decide (t < u + period) && decide (u ≤ t)
    | none => false)

/-! ## snowflake_connector.py — fetching and batching MAIDs

The warehouse is an external collaborator; its observable interface for one
app is the ordered result set of
`SELECT DISTINCT DEVICE_ID_VALUE ... ORDER BY DEVICE_ID_VALUE`, modelled as
`rows : List (Option String)` (`none` is a NULL device id).
`COUNT(DISTINCT DEVICE_ID_VALUE)` counts the non-null distinct values, i.e.
the `some` entries of that result set, and `LIMIT k OFFSET o` pagination
returns `(rows.drop o).take k`. -/

/-- Total record count over a list of batches. -/
def sumLen (bs : List (List String)) : Nat :=
  (bs.map List.length).sum

/-- Embedding of `get_audience_count` (snowflake_connector.py lines
139-171): `COUNT(DISTINCT DEVICE_ID_VALUE)` for the app. -/
def get_audience_count (rows : List (Option String)) : Nat :=
  (rows.filterMap id).length

/-- One iteration of the row loop of `get_batch_audience_maids`
(snowflake_connector.py lines 236-246): skip NULLs, append to the current
batch, and close the batch once it reaches `batch_size`. -/
def batchStep (batch_size : Nat) (st : List (List String) × List String) (row : Option String) :
    List (List String) × List String :=
  match row with
  | none => st
  | some v =>
    let cur := st.2 ++ [v]
    if batch_size ≤ cur.length then (st.1 ++ [cur], []) else (st.1, cur)

/-- The full row loop: fold `batchStep` over the fetched rows, starting from
the accumulated `(batches, current_batch)` state. -/
def processRows (batch_size : Nat) (rows : List (Option String))
    (st : List (List String) × List String) : List (List String) × List String :=
  rows.foldl (batchStep batch_size) st

/-- Leftover handling after one chunk of `_fetch_large_dataset_chunked`
(snowflake_connector.py lines 311-333).  `current_batch` is re-initialised
for the chunk, so the incoming leftover is empty; after the chunk, a
non-empty leftover is appended when this is the last chunk, or when it is at
least 80% of `batch_size` — otherwise the code intends to "carry over to next
chunk" but simply drops it (the local is reset at the top of the next chunk).
Python compares `len(current_batch) >= batch_size * 0.8` in floating point;
`8 * batch_size ≤ 10 * len` is the exact-arithmetic reading (they can only
differ when `4 * batch_size` is within one part in `2^50` of `5 * len`,
far from every case considered here). -/
def chunkBatches (batch_size : Nat) (batches : List (List String))
    (chunk : List (Option String)) (is_last : Bool) : List (List String) :=
  let st := processRows batch_size chunk (batches, [])
  if st.2.length ≠ 0 then
    if is_last then st.1 ++ [st.2]
    else if 8 * batch_size ≤ 10 * st.2.length then st.1 ++ [st.2]
    else st.1
  else st.1

/-- The `while total_fetched < total_count` loop of
`_fetch_large_dataset_chunked` (snowflake_connector.py lines 295-342):
fetch `min(10_000_000, total_count - total_fetched)` rows at the current
offset, stop on an empty chunk, process the chunk, and advance the offset by
the number of rows fetched.  `is_last` is the source's
`total_fetched + len(chunk_results) >= total_count`. -/
def fetch_large_dataset_chunked_go (rows : List (Option String))
    (total_count batch_size total_fetched : Nat) (batches : List (List String)) :
    List (List String) :=
  if h : total_fetched < total_count then
    let chunk := (rows.drop total_fetched).take (min 10000000 (total_count - total_fetched))
    if hc : chunk.length = 0 then batches
    else
      fetch_large_dataset_chunked_go rows total_count batch_size (total_fetched + chunk.length)
        (chunkBatches batch_size batches chunk (decide (total_count ≤ total_fetched + chunk.length)))
  else batches
  termination_by total_count - total_fetched
  decreasing_by
    have hc' : ((rows.drop total_fetched).take
        (min 10000000 (total_count - total_fetched))).length ≠ 0 := hc
    omega

/-- Embedding of `_fetch_large_dataset_chunked` (snowflake_connector.py
lines 264-355). -/
def fetch_large_dataset_chunked (rows : List (Option String)) (total_count batch_size : Nat) :
    List (List String) :=
  fetch_large_dataset_chunked_go rows total_count batch_size 0 []

/-- Embedding of `get_batch_audience_maids` (snowflake_connector.py lines
173-258): empty result for a zero count; the chunked fetch above 20 million
records; otherwise a single full fetch greedily split into batches of
`batch_size`, with the leftover appended as the final batch. -/
def get_batch_audience_maids (rows : List (Option String)) (batch_size : Nat) :
    List (List String) :=
  let total_count := get_audience_count rows
  if total_count = 0 then []
  else if 20000000 < total_count then fetch_large_dataset_chunked rows total_count batch_size
  else
    let st := processRows batch_size rows ([], [])
    if st.2.length ≠ 0 then st.1 ++ [st.2] else st.1

/-! ## optimized_etl_pipeline.py — `upload_app_audience_optimized` -/

/-- Python `f'{n:,}'`: decimal digits grouped in threes by commas. -/
def commaFmt (n : Nat) : String :=
  String.mk (List.intercalate [','] (((chunksOf 3 (toString n).data.reverse).map List.reverse).reverse))

/-- The external collaborators of one `upload_app_audience_optimized` run,
injected as oracles: the audience listing, the Snowflake count, the
create-audience call, the Snowflake fetch (already batched), and the
per-chunk `add_users_to_audience_batch` outcome (`users_uploaded` or a
raised exception), indexed by the sequential chunk-call number and chunk
contents. -/
structure PipeEnv where
  listAudiences : Except String (List (String × String))
  maid_count : Nat
  create : Except String String
  fetch : Except String (List (List String))
  upload : Nat → List String → Except String Nat

/-- The per-app result dict assembled by `upload_app_audience_optimized`;
fields the run did not set stay `none`. -/
structure PipeResult where
  status : String
  reason : Option String := none
  audience_id : Option String := none
  error : Option String := none
  maid_count : Option Nat := none
  maids_fetched : Option Nat := none
  maids_uploaded : Option Nat := none
  deriving DecidableEq

/-- The inner chunk loop over one Snowflake batch (optimized_etl_pipeline.py
lines 216-241): each chunk upload is tried on its own; on an exception the
loop logs and `continue`s with the next chunk.  Only a truthy
`users_uploaded` is added to the totals.  State is
`(total_uploaded, next call index, chunk-call trace)`. -/
def uploadChunksSeq (upload : Nat → List String → Except String Nat) :
    List (List String) → Nat → Nat → List Nat → Nat × Nat × List Nat
  | [], idx, total, trace => (total, idx, trace)
  | c :: cs, idx, total, trace =>
    let total' :=
      match upload idx c with
      | .ok n => if n ≠ 0 then total + n else total
      | .error _ => total
    uploadChunksSeq upload cs (idx + 1) total' (trace ++ [idx])

/-- The outer upload loop (optimized_etl_pipeline.py lines 212-241): every
Snowflake batch is sliced into Meta chunks of `batch_size` and streamed
through `uploadChunksSeq`. -/
def uploadAllBatches (upload : Nat → List String → Except String Nat) (batch_size : Nat)
    (batches : List (List String)) : Nat × Nat × List Nat :=
  batches.foldl
    (fun acc sf => uploadChunksSeq upload (chunksOf batch_size sf) acc.2.1 acc.1 acc.2.2)
    (0, 0, [])

/-- Embedding of `upload_app_audience_optimized` (optimized_etl_pipeline.py
lines 90-266).  Returns the result dict plus the trace of chunk-upload calls
issued.  The `try`/`except` structure of the source maps exception values to
the early-`return`/`status='error'` results; the choice of Snowflake-side
batch size (lines 172-179) only parametrises the injected `fetch`. -/
def upload_app_audience_optimized (env : PipeEnv) (app_name os_type : String)
    (batch_size : Nat) (skip_existing : Bool) : PipeResult × List Nat :=
  let audience_name := OptimizedEtlPipeline.create_correct_audience_name app_name os_type
  match (if skip_existing then env.listAudiences.map (fun l => l.lookup audience_name)
         else .ok none) with
  | .error e => ({ status := "error", error := some e }, [])
  | .ok (some aid) =>
    ({ status := "skipped", reason := some "already_exists", audience_id := some aid }, [])
  | .ok none =>
    let maid_count := env.maid_count
    if maid_count = 0 then
      ({ status := "skipped", reason := some "no_maids", maid_count := some maid_count }, [])
    else
      match env.create with
      | .error e => ({ status := "error", error := some e, maid_count := some maid_count }, [])
      | .ok audience_id =>
        match env.fetch with
        | .error e =>
          if 20000000 < maid_count then
            ({ status := "skipped",
               reason := some ("Too large to fetch (" ++ commaFmt maid_count ++ " MAIDs)"),
               error := some e, audience_id := some audience_id,
               maid_count := some maid_count }, [])
          else
            ({ status := "error", error := some e, audience_id := some audience_id,
               maid_count := some maid_count }, [])
        | .ok batches =>
          if batches.isEmpty then
            ({ status := "created_empty", audience_id := some audience_id,
               maid_count := some maid_count }, [])
          else
            let fetched := sumLen batches
            let r := uploadAllBatches env.upload batch_size batches
            if r.1 ≠ 0 then
              ({ status := "success", audience_id := some audience_id,
                 maid_count := some maid_count, maids_fetched := some fetched,
                 maids_uploaded := some r.1 }, r.2.2)
            else
              ({ status := "upload_failed", audience_id := some audience_id,
                 maid_count := some maid_count, maids_fetched := some fetched }, r.2.2)

/-! ## audience_uploader.py — `upload_single_audience` -/

/-- One entry of the audience list fed to the upload manager; optional keys
of the Python dict are `Option`s. -/
structure AudienceData where
  name : String
  description : Option String
  users : List User
  device_count : Option Nat

/-- Injected collaborators of `upload_single_audience`: the create call (the
`id` field of its response may be missing), the user-upload call, and the
optional data processor's generated sample. -/
structure UploaderEnv where
  create : Except String (Option String)
  addUsers : Except String Unit
  has_data_processor : Bool
  sample_users : List User

/-- Sink (Meta) API calls the upload manager can issue for one audience. -/
inductive SinkCall where
  | createAudience (name : String)
  | appendUsers (audience_id : String)
  deriving DecidableEq

/-- Embedding of `AudienceUploadManager.upload_single_audience`
(audience_uploader.py lines 79-154).  Returns the `(success, audience_id)`
pair, the trace of Sink calls issued, and the updated completed set.  The
skip check against the checkpoint's completed set happens before anything
else; every failure inside the `try` is caught and mapped to
`(False, None)`. -/
def upload_single_audience (completed : List String) (env : UploaderEnv)
    (audience_data : AudienceData) (with_users : Bool) :
    (Bool × Option String) × List SinkCall × List String :=
  let audience_name := audience_data.name
  if audience_name ∈ completed then ((true, none), [], completed)
  else
    match env.create with
    | .error _ => ((false, none), [.createAudience audience_name], completed)
    | .ok none => ((false, none), [.createAudience audience_name], completed)
    | .ok (some audience_id) =>
      if with_users then
        let users := audience_data.users
        let users := if users.isEmpty ∧ env.has_data_processor then env.sample_users else users
        if users.isEmpty then
          ((true, some audience_id), [.createAudience audience_name],
            completed ++ [audience_name])
        else
          match env.addUsers with
          | .error _ =>
            ((false, none), [.createAudience audience_name, .appendUsers audience_id], completed)
          | .ok _ =>
            ((true, some audience_id), [.createAudience audience_name, .appendUsers audience_id],
              completed ++ [audience_name])
      else
        ((true, some audience_id), [.createAudience audience_name], completed ++ [audience_name])

/-- A warehouse result set of 20,000,001 distinct non-null device ids — just
above the 20-million chunked-fetch threshold. -/
def bigList : List String := (List.range 20000001).map toString

/-- The same result set as the Source returns it (no NULL rows). -/
def bigRows : List (Option String) := bigList.map some

/-- Fuel at least the list length makes `chunksGo` cover the whole list:
its chunks concatenate back to the input (positive chunk size). -/
theorem chunksGo_flatten {α : Type} (bs : Nat) (hbs : 0 < bs) :
    ∀ (fuel : Nat) (l : List α), l.length ≤ fuel → (chunksGo bs fuel l).flatten = l := by
  intro fuel
  induction fuel with
  | zero =>
    intro l hl
    have : l = [] := List.length_eq_zero.mp (Nat.le_zero.mp hl)
    subst this; rfl
  | succ n ih =>
    intro l hl
    cases l with
    | nil => rfl
    | cons x xs =>
      obtain ⟨b, rfl⟩ : ∃ b, bs = b + 1 := ⟨bs - 1, by omega⟩
      simp only [chunksGo, List.flatten_cons, Nat.add_sub_cancel]
      rw [ih (xs.drop b) (by simp [List.length_drop]; simp at hl; omega)]
      simp only [List.take_succ_cons]
      rw [List.cons_append, List.take_append_drop]

/-- The slices of `chunksOf` concatenate back to the input list. -/
theorem chunksOf_flatten {α : Type} (bs : Nat) (hbs : 0 < bs) (l : List α) :
    (chunksOf bs l).flatten = l :=
  chunksGo_flatten bs hbs l.length l le_rfl

/-- On success, the payload rows sent by the upload loop are exactly the
per-chunk processed rows, provided the payload data does not depend on the
chunk index (it never does; only `is_raw` does). -/
theorem runUploadChunks_map_data (oracle : Nat → Except PyError String)
    (mk : Nat → List User → Request) (dataOf : List User → List (List String))
    (hmk : ∀ i c, (mk i c).data = dataOf c) :
    ∀ (chunks : List (List User)) (i : Nat) (tr : List Request),
      runUploadChunks oracle mk i chunks = .ok tr → tr.map Request.data = chunks.map dataOf := by
  intro chunks
  induction chunks with
  | nil =>
    intro i tr h
    simp only [runUploadChunks] at h
    cases h; rfl
  | cons c cs ih =>
    intro i tr h
    simp only [runUploadChunks] at h
    cases horacle : oracle i with
    | error e => rw [horacle] at h; cases h
    | ok _ =>
      rw [horacle] at h
      cases hrec : runUploadChunks oracle mk (i + 1) cs with
      | error e => rw [hrec] at h; cases h
      | ok rest =>
        rw [hrec] at h
        cases h
        simp only [List.map_cons, hmk]
        rw [ih (i + 1) rest hrec]

/-- The element of `processUser`'s output at a valid schema position. -/
theorem processUser_getD (sha : String → String) (schema : List String) (is_hashed : Bool)
    (user : User) (j : Nat) (hj : j < schema.length) :
    (processUser sha schema is_hashed user).getD j "" =
      (if getDefault user (pyLower (schema.getD j "")) ≠ "" ∧ is_hashed = false ∧
          schema.getD j "" ≠ "MADID"
       then hash_user_data sha (getDefault user (pyLower (schema.getD j "")))
       else getDefault user (pyLower (schema.getD j ""))) := by
  have hj' : j < (processUser sha schema is_hashed user).length := by
    simpa [processUser] using hj
  rw [List.getD_eq_getElem _ _ hj', List.getD_eq_getElem _ _ hj]
  simp only [processUser, List.getElem_map]

/-- Mass conservation for the row loop: the records in the closed batches
followed by the current batch are exactly the initial state's records then
the non-null fetched rows, in order. -/
theorem processRows_flatten (bs : Nat) :
    ∀ (rows : List (Option String)) (st : List (List String) × List String),
      (processRows bs rows st).1.flatten ++ (processRows bs rows st).2
        = st.1.flatten ++ st.2 ++ rows.filterMap id := by
  intro rows
  induction rows with
  | nil => intro st; simp [processRows]
  | cons r rs ih =>
    intro st
    have hcons : processRows bs (r :: rs) st = processRows bs rs (batchStep bs st r) := rfl
    rw [hcons, ih]
    cases r with
    | none => simp [batchStep, List.filterMap_cons]
    | some v =>
      simp only [batchStep, List.filterMap_cons, id]
      split
      · simp [List.flatten_append, List.append_assoc]
      · simp [List.append_assoc]

/-- Every batch the row loop closes has length exactly `batch_size`, and the
running current batch stays strictly below it (for positive batch size). -/
theorem processRows_full (bs : Nat) (hbs : 0 < bs) :
    ∀ (rows : List (Option String)) (st : List (List String) × List String),
      st.2.length < bs → (∀ b ∈ st.1, b.length = bs) →
      (∀ b ∈ (processRows bs rows st).1, b.length = bs) ∧
        (processRows bs rows st).2.length < bs := by
  intro rows
  induction rows with
  | nil => intro st h1 h2; exact ⟨h2, h1⟩
  | cons r rs ih =>
    intro st h1 h2
    have hcons : processRows bs (r :: rs) st = processRows bs rs (batchStep bs st r) := rfl
    rw [hcons]
    cases r with
    | none => exact ih st h1 h2
    | some v =>
      simp only [batchStep]
      split
      · rename_i hclose
        refine ih _ (by simpa using hbs) ?_
        intro b hb
        rcases List.mem_append.mp hb with hb | hb
        · exact h2 b hb
        · have : b = st.2 ++ [v] := List.mem_singleton.mp hb
          subst this
          simp only [List.length_append, List.length_singleton]
          simp only [List.length_append, List.length_singleton] at hclose
          omega
      · rename_i hopen
        refine ih _ ?_ h2
        simp only [List.length_append, List.length_singleton] at hopen ⊢
        omega

/-- Total record count of a list of batches that are all exactly full. -/
theorem sumLen_of_full (bs : Nat) :
    ∀ (l : List (List String)), (∀ b ∈ l, b.length = bs) → sumLen l = l.length * bs := by
  intro l
  induction l with
  | nil => intro h; simp [sumLen]
  | cons b t ih =>
    intro h
    simp only [sumLen, List.map_cons, List.sum_cons, List.length_cons]
    rw [h b (List.mem_cons_self b t)]
    have := ih (fun x hx => h x (List.mem_cons_of_mem b hx))
    simp only [sumLen] at this
    rw [this]
    ring

/-- `sumLen` is the length of the concatenation. -/
theorem sumLen_eq_length_flatten (l : List (List String)) : sumLen l = l.flatten.length :=
  (List.length_flatten l).symm

/-- `filterMap id` undoes `map some`. -/
theorem filterMap_id_map_some (l : List String) : (l.map some).filterMap id = l := by
  induction l with
  | nil => rfl
  | cons x xs ih => simp [List.filterMap_cons, ih]

/-- Statistics of one chunk's row loop on all-non-null rows, starting from a
list of exactly-full batches and an empty current batch: the result is again
all-full batches plus a current batch shorter than `batch_size`, and the
counts balance. -/
theorem processRows_map_some_stats (bs : Nat) (hbs : 0 < bs) (l : List String)
    (acc : List (List String)) (hacc : ∀ b ∈ acc, b.length = bs) :
    (∀ b ∈ (processRows bs (l.map some) (acc, [])).1, b.length = bs) ∧
    (processRows bs (l.map some) (acc, [])).1.length * bs
        + (processRows bs (l.map some) (acc, [])).2.length
      = acc.length * bs + l.length ∧
    (processRows bs (l.map some) (acc, [])).2.length < bs := by
  have hfull := processRows_full bs hbs (l.map some) (acc, []) (by simpa using hbs) hacc
  have hmass := processRows_flatten bs (l.map some) (acc, [])
  have hlen := congrArg List.length hmass
  simp only [List.length_append, filterMap_id_map_some] at hlen
  have h1 : (processRows bs (l.map some) (acc, [])).1.flatten.length
      = (processRows bs (l.map some) (acc, [])).1.length * bs := by
    rw [← sumLen_eq_length_flatten, sumLen_of_full bs _ hfull.1]
  have h2 : acc.flatten.length = acc.length * bs := by
    rw [← sumLen_eq_length_flatten, sumLen_of_full bs _ hacc]
  refine ⟨hfull.1, ?_, hfull.2⟩
  rw [h1, h2] at hlen
  simp at hlen
  omega

/-- One unrolling of the chunked-fetch loop when the offset is still inside
the expected total and the chunk is non-empty. -/
theorem fetch_go_step (rows : List (Option String)) (tc bs tf : Nat)
    (batches : List (List String)) (h : tf < tc)
    (hc : ((rows.drop tf).take (min 10000000 (tc - tf))).length ≠ 0) :
    fetch_large_dataset_chunked_go rows tc bs tf batches
      = fetch_large_dataset_chunked_go rows tc bs
          (tf + ((rows.drop tf).take (min 10000000 (tc - tf))).length)
          (chunkBatches bs batches ((rows.drop tf).take (min 10000000 (tc - tf)))
            (decide (tc ≤ tf + ((rows.drop tf).take (min 10000000 (tc - tf))).length))) := by
  rw [fetch_large_dataset_chunked_go]
  simp only [dif_pos h, dif_neg hc]

/-- The chunked-fetch loop stops at the expected total. -/
theorem fetch_go_stop (rows : List (Option String)) (tc bs tf : Nat)
    (batches : List (List String)) (h : ¬ tf < tc) :
    fetch_large_dataset_chunked_go rows tc bs tf batches = batches := by
  rw [fetch_large_dataset_chunked_go]
  simp only [dif_neg h]

/-- Record count of concatenated batch lists. -/
theorem sumLen_append (a b : List (List String)) : sumLen (a ++ b) = sumLen a + sumLen b := by
  simp [sumLen]

/-- The dropped-leftover case of `chunkBatches` on an all-non-null chunk: a
leftover that is neither last nor at least 80% full is discarded, leaving
only the exactly-full batches.  The count identity exposes the loss: the
output carries `acc.length * bs + l.length` records *minus* the discarded
leftover. -/
theorem chunkBatches_some_drop (bs : Nat) (hbs : 0 < bs) (l : List String)
    (acc : List (List String)) (hacc : ∀ b ∈ acc, b.length = bs)
    (hr0 : (processRows bs (l.map some) (acc, [])).2.length ≠ 0)
    (hr8 : ¬ 8 * bs ≤ 10 * (processRows bs (l.map some) (acc, [])).2.length) :
    chunkBatches bs acc (l.map some) false = (processRows bs (l.map some) (acc, [])).1 ∧
    (∀ b ∈ chunkBatches bs acc (l.map some) false, b.length = bs) ∧
    (chunkBatches bs acc (l.map some) false).length * bs
        + (processRows bs (l.map some) (acc, [])).2.length
      = acc.length * bs + l.length := by
  have stats := processRows_map_some_stats bs hbs l acc hacc
  have heq : chunkBatches bs acc (l.map some) false
      = (processRows bs (l.map some) (acc, [])).1 := by
    simp only [chunkBatches]
    rw [if_pos hr0]
    simp only [Bool.false_eq_true, if_false]
    rw [if_neg hr8]
  exact ⟨heq, by rw [heq]; exact stats.1, by rw [heq]; exact stats.2.1⟩

/-- The last-chunk case of `chunkBatches` on an all-non-null chunk: the
leftover is appended, so every record of the initial batches and of the
chunk is accounted for. -/
theorem chunkBatches_some_last (bs : Nat) (hbs : 0 < bs) (l : List String)
    (acc : List (List String)) (hacc : ∀ b ∈ acc, b.length = bs)
    (hr0 : (processRows bs (l.map some) (acc, [])).2.length ≠ 0) :
    sumLen (chunkBatches bs acc (l.map some) true) = acc.length * bs + l.length := by
  have stats := processRows_map_some_stats bs hbs l acc hacc
  have heq : chunkBatches bs acc (l.map some) true
      = (processRows bs (l.map some) (acc, [])).1
          ++ [(processRows bs (l.map some) (acc, [])).2] := by
    simp only [chunkBatches]
    rw [if_pos hr0]
    simp
  rw [heq, sumLen_append]
  have h1 : sumLen (processRows bs (l.map some) (acc, [])).1
      = (processRows bs (l.map some) (acc, [])).1.length * bs :=
    sumLen_of_full bs _ stats.1
  have h2 : sumLen [(processRows bs (l.map some) (acc, [])).2]
      = (processRows bs (l.map some) (acc, [])).2.length := by
    simp [sumLen]
  rw [h1, h2]
  omega


/-- The small-dataset path of `get_batch_audience_maids` is a correct
rechunker: the output batches concatenate to exactly the non-null rows and
none exceeds the target size. -/
theorem get_batch_small_spec (rows : List (Option String)) (batch_size : Nat)
    (hbs : 0 < batch_size) (hsmall : get_audience_count rows ≤ 20000000) :
    (get_batch_audience_maids rows batch_size).flatten = rows.filterMap id ∧
    ∀ b ∈ get_batch_audience_maids rows batch_size, b.length ≤ batch_size := by
  by_cases h0 : get_audience_count rows = 0
  · have hnil : rows.filterMap id = [] :=
      List.length_eq_zero.mp (by simpa [get_audience_count] using h0)
    constructor
    · simp [get_batch_audience_maids, h0, hnil]
    · simp [get_batch_audience_maids, h0]
  · have hle : ¬ 20000000 < get_audience_count rows := by omega
    have hflat := processRows_flatten batch_size rows ([], [])
    simp only [List.flatten_nil, List.nil_append] at hflat
    have hfull := processRows_full batch_size hbs rows ([], [])
      (by simpa using hbs) (by intro b hb; cases hb)
    simp only [get_batch_audience_maids, if_neg h0, if_neg hle]
    constructor
    · split
      · simp only [List.flatten_append, List.flatten_cons, List.flatten_nil, List.append_nil]
        exact hflat
      · rename_i hz
        have hz' : (processRows batch_size rows ([], [])).2 = [] := by
          refine List.length_eq_zero.mp ?_
          by_contra hne
          exact hz (by simpa using hne)
        rw [hz', List.append_nil] at hflat
        exact hflat
    · split
      · intro b hb
        rcases List.mem_append.mp hb with hb | hb
        · exact le_of_eq (hfull.1 b hb)
        · have hbb : b = (processRows batch_size rows ([], [])).2 := List.mem_singleton.mp hb
          subst hbb
          exact le_of_lt hfull.2
      · intro b hb
        exact le_of_eq (hfull.1 b hb)

/-- Evaluating the chunked fetch on `bigRows` with Meta batch size 8,000,000:
each of the two non-final chunks ends with a 2,000,000-record leftover that
is under 80% of the batch size, and the loop discards it, so only 16,000,001
of the 20,000,001 records survive into the output batches. -/
theorem bigRows_chunked_loss :
    get_audience_count bigRows = 20000001 ∧
    sumLen (get_batch_audience_maids bigRows 8000000) = 16000001 := by
  have hbl : bigList.length = 20000001 := by simp [bigList]
  have hcount : get_audience_count bigRows = 20000001 := by
    simp only [get_audience_count, bigRows, filterMap_id_map_some, hbl]
  refine ⟨hcount, ?_⟩
  -- chunk 1: rows 0 .. 10,000,000
  have hch1 : (bigRows.drop 0).take (min 10000000 (20000001 - 0))
      = (bigList.take 10000000).map some := by
    rw [List.drop_zero, show min 10000000 (20000001 - 0) = 10000000 from by norm_num,
      show bigRows = bigList.map some from rfl]
    exact (List.map_take some bigList 10000000).symm
  have hl1 : (bigList.take 10000000).length = 10000000 := by
    rw [List.length_take, hbl]
    omega
  have hlen1 : ((bigRows.drop 0).take (min 10000000 (20000001 - 0))).length = 10000000 := by
    rw [hch1, List.length_map]; exact hl1
  obtain ⟨hf1, he1, hlt1⟩ := processRows_map_some_stats 8000000 (by norm_num)
    (bigList.take 10000000) [] (by intro b hb; cases hb)
  rw [hl1] at he1
  simp only [List.length_nil, Nat.zero_mul, Nat.zero_add] at he1
  have hr1 : (processRows 8000000 ((bigList.take 10000000).map some) ([], [])).2.length
      = 2000000 := by omega
  have hb1len : (processRows 8000000 ((bigList.take 10000000).map some) ([], [])).1.length
      = 1 := by omega
  have cb1 := chunkBatches_some_drop 8000000 (by norm_num) (bigList.take 10000000) []
    (by intro b hb; cases hb) (by rw [hr1]; norm_num) (by rw [hr1]; norm_num)
  -- chunk 2: rows 10,000,000 .. 20,000,000
  have hch2 : (bigRows.drop 10000000).take (min 10000000 (20000001 - 10000000))
      = ((bigList.drop 10000000).take 10000000).map some := by
    rw [show min 10000000 (20000001 - 10000000) = 10000000 from by norm_num,
      show bigRows = bigList.map some from rfl, (List.map_drop some bigList 10000000).symm]
    exact (List.map_take some (bigList.drop 10000000) 10000000).symm
  have hl2 : ((bigList.drop 10000000).take 10000000).length = 10000000 := by
    rw [List.length_take, List.length_drop, hbl]
    omega
  have hlen2 : ((bigRows.drop 10000000).take (min 10000000 (20000001 - 10000000))).length
      = 10000000 := by
    rw [hch2, List.length_map]; exact hl2
  obtain ⟨hf2, he2, hlt2⟩ := processRows_map_some_stats 8000000 (by norm_num)
    ((bigList.drop 10000000).take 10000000)
    (processRows 8000000 ((bigList.take 10000000).map some) ([], [])).1 hf1
  rw [hb1len, hl2] at he2
  simp only [Nat.one_mul] at he2
  have hr2 : (processRows 8000000 (((bigList.drop 10000000).take 10000000).map some)
      ((processRows 8000000 ((bigList.take 10000000).map some) ([], [])).1, [])).2.length
      = 2000000 := by omega
  have hb2len : (processRows 8000000 (((bigList.drop 10000000).take 10000000).map some)
      ((processRows 8000000 ((bigList.take 10000000).map some) ([], [])).1, [])).1.length
      = 2 := by omega
  have cb2 := chunkBatches_some_drop 8000000 (by norm_num) ((bigList.drop 10000000).take 10000000)
    (processRows 8000000 ((bigList.take 10000000).map some) ([], [])).1 hf1
    (by rw [hr2]; norm_num) (by rw [hr2]; norm_num)
  -- chunk 3: the final row
  have hch3 : (bigRows.drop 20000000).take (min 10000000 (20000001 - 20000000))
      = ((bigList.drop 20000000).take 1).map some := by
    rw [show min 10000000 (20000001 - 20000000) = 1 from by norm_num,
      show bigRows = bigList.map some from rfl, (List.map_drop some bigList 20000000).symm]
    exact (List.map_take some (bigList.drop 20000000) 1).symm
  have hl3 : ((bigList.drop 20000000).take 1).length = 1 := by
    rw [List.length_take, List.length_drop, hbl]
    omega
  have hlen3 : ((bigRows.drop 20000000).take (min 10000000 (20000001 - 20000000))).length
      = 1 := by
    rw [hch3, List.length_map]; exact hl3
  obtain ⟨hf3, he3, hlt3⟩ := processRows_map_some_stats 8000000 (by norm_num)
    ((bigList.drop 20000000).take 1)
    (processRows 8000000 (((bigList.drop 10000000).take 10000000).map some)
      ((processRows 8000000 ((bigList.take 10000000).map some) ([], [])).1, [])).1 hf2
  rw [hb2len, hl3] at he3
  have hr3 : (processRows 8000000 (((bigList.drop 20000000).take 1).map some)
      ((processRows 8000000 (((bigList.drop 10000000).take 10000000).map some)
        ((processRows 8000000 ((bigList.take 10000000).map some) ([], [])).1, [])).1, [])).2.length
      = 1 := by omega
  have cb3 := chunkBatches_some_last 8000000 (by norm_num) ((bigList.drop 20000000).take 1)
    (processRows 8000000 (((bigList.drop 10000000).take 10000000).map some)
      ((processRows 8000000 ((bigList.take 10000000).map some) ([], [])).1, [])).1 hf2
    (by rw [hr3]; norm_num)
  -- drive the loop
  have hmain : get_batch_audience_maids bigRows 8000000
      = fetch_large_dataset_chunked_go bigRows 20000001 8000000 0 [] := by
    simp only [get_batch_audience_maids, hcount]
    norm_num
    rfl
  rw [hmain]
  rw [fetch_go_step bigRows 20000001 8000000 0 [] (by norm_num) (by rw [hlen1]; norm_num)]
  rw [hlen1, hch1]
  rw [show (0 + 10000000 : Nat) = 10000000 from rfl]
  rw [show decide ((20000001 : Nat) ≤ 10000000) = false from by decide]
  rw [cb1.1]
  rw [fetch_go_step bigRows 20000001 8000000 10000000 _ (by norm_num) (by rw [hlen2]; norm_num)]
  rw [hlen2, hch2]
  rw [show (10000000 + 10000000 : Nat) = 20000000 from rfl]
  rw [show decide ((20000001 : Nat) ≤ 20000000) = false from by decide]
  rw [cb2.1]
  rw [fetch_go_step bigRows 20000001 8000000 20000000 _ (by norm_num) (by rw [hlen3]; norm_num)]
  rw [hlen3, hch3]
  rw [show (20000000 + 1 : Nat) = 20000001 from rfl]
  rw [show decide ((20000001 : Nat) ≤ 20000001) = true from by decide]
  rw [fetch_go_stop bigRows 20000001 8000000 20000001 _ (by norm_num)]
  rw [cb3, hb2len, hl3]

/-- Claim C1. -/
theorem claim_C1 :
    (∀ (rows : List (Option String)) (batch_size : Nat), 0 < batch_size →
      get_audience_count rows ≤ 20000000 →
      (get_batch_audience_maids rows batch_size).flatten = rows.filterMap id ∧
      ∀ b ∈ get_batch_audience_maids rows batch_size, b.length ≤ batch_size) ∧
    get_audience_count bigRows = 20000001 ∧
    sumLen (get_batch_audience_maids bigRows 8000000) = 16000001 ∧
    sumLen (get_batch_audience_maids bigRows 8000000) < get_audience_count bigRows := by
  refine ⟨get_batch_small_spec, bigRows_chunked_loss.1, bigRows_chunked_loss.2, ?_⟩
  rw [bigRows_chunked_loss.1, bigRows_chunked_loss.2]
  norm_num

/-- Claim C1 witness. -/
theorem claim_C1_witness :
    (0 : Nat) < 2 ∧ get_audience_count [some "a", none, some "b", some "c"] ≤ 20000000 ∧
    (get_batch_audience_maids [some "a", none, some "b", some "c"] 2).flatten
        = ["a", "b", "c"] ∧
    ∀ b ∈ get_batch_audience_maids [some "a", none, some "b", some "c"] 2, b.length ≤ 2 := by
  have h := claim_C1.1 [some "a", none, some "b", some "c"] 2 (by decide) (by decide)
  exact ⟨by decide, by decide, h.1.trans (by decide), h.2⟩

/-- Claim C7 counterexample. -/
theorem claim_C7_counterexample :
    OptimizedEtlPipeline.create_correct_audience_name "Hit it Rich! Free Casino Slots" "Android"
        = "US_Android_Hit it Rich Free Casino Slots_PIE" ∧
    OptimizedEtlPipeline.create_correct_audience_name "Hit it Rich! Free Casino Slots" "Android"
        ≠ "US_Android_Hit_it_Rich_Free_Casino_Slots_PIE" := by
  exact ⟨by decide, by decide⟩

/-- Claim C7 amended. -/
theorem claim_C7 :
    BatchUploadFromCsv.create_audience_name "Hit it Rich! Free Casino Slots" "Android"
        = "US_Android_Hit_it_Rich_Free_Casino_Slots_PIE" ∧
    UploadSkippedOptimized.create_audience_name "Hit it Rich! Free Casino Slots" "Android"
        = "US_Android_Hit_it_Rich_Free_Casino_Slots_PIE" ∧
    (BatchUploadFromCsv.create_audience_name "Hit it Rich! Free Casino Slots" "Android").data.length ≤ 200 ∧
    (UploadSkippedOptimized.create_audience_name "Hit it Rich! Free Casino Slots" "Android").data.length ≤ 200 ∧
    OptimizedEtlPipeline.create_correct_audience_name "Hit it Rich! Free Casino Slots" "Android"
        = "US_Android_Hit it Rich Free Casino Slots_PIE" ∧
    (OptimizedEtlPipeline.create_correct_audience_name "Hit it Rich! Free Casino Slots" "Android").data.length ≤ 200 := by
  refine ⟨by decide, by decide, by decide, by decide, by decide, by decide⟩

/-- Claim C8 counterexample. -/
theorem claim_C8_counterexample :
    ¬ ((load_progress CheckpointFile.missing).1 = [] ∧ (load_progress CheckpointFile.missing).2 = true) := by
  decide

/-- Claim C8 amended. -/
theorem claim_C8 :
    load_progress CheckpointFile.missing = ([], false) ∧
    load_progress CheckpointFile.unreadable = ([], true) ∧
    load_progress CheckpointFile.notJson = ([], true) ∧
    load_progress (CheckpointFile.jsonOf JsonVal.nonDict) = ([], true) ∧
    ∀ l, load_progress (CheckpointFile.jsonOf (JsonVal.dictWith (some l))) = (l, false) := by
  refine ⟨rfl, rfl, rfl, rfl, fun l => rfl⟩

/-- Claim C9 counterexample. -/
theorem claim_C9_counterexample :
    MetaAPIClient.init ⟨[]⟩ none none =
      .error (.valueError "Ad Account ID is required. Please set META_AD_ACCOUNT_ID in your environment.") ∧
    MetaAPIClient.init ⟨[]⟩ none none ≠ .error (.attributeError "META_BASE_URL") := by
  exact ⟨rfl, by decide⟩

/-- Claim C9 amended. -/
theorem claim_C9 (e : Env) (tok acct : Option String) :
    (∀ a, truthyOr acct (Config.META_AD_ACCOUNT_ID e) = some a → a ≠ "" →
      MetaAPIClient.init e tok acct = .error (.attributeError "META_BASE_URL")) ∧
    (∀ c, MetaAPIClient.init e tok acct ≠ .ok c) := by
  constructor
  · intro a ha hne
    unfold MetaAPIClient.init
    rw [ha]
    simp [hne]
    rfl
  · intro c hcon
    unfold MetaAPIClient.init at hcon
    cases h : truthyOr acct (Config.META_AD_ACCOUNT_ID e) with
    | none => rw [h] at hcon; simp at hcon
    | some a =>
      rw [h] at hcon
      by_cases ha : a = "" <;> simp [ha] at hcon
      · exact absurd hcon (by intro hh; cases hh)

/-- Claim C9 witness. -/
theorem claim_C9_witness :
    MetaAPIClient.init ⟨[("META_AD_ACCOUNT_ID", "act_42")]⟩ none none =
      .error (.attributeError "META_BASE_URL") :=
  (claim_C9 ⟨[("META_AD_ACCOUNT_ID", "act_42")]⟩ none none).1 "act_42" rfl (by decide)

/-- Claim C2. -/
theorem claim_C2 (L : List String) (env : UploaderEnv) (audience_data : AudienceData)
    (with_users : Bool)
    (h : audience_data.name ∈ (load_progress (.jsonOf (.dictWith (some L)))).1) :
    upload_single_audience (load_progress (.jsonOf (.dictWith (some L)))).1 env audience_data
        with_users
      = ((true, none), [], (load_progress (.jsonOf (.dictWith (some L)))).1) := by
  unfold upload_single_audience
  simp [h]

/-- Claim C2 witness. -/
theorem claim_C2_witness :
    "US_iOS_Test_App_PIE" ∈ (load_progress (.jsonOf (.dictWith (some ["US_iOS_Test_App_PIE"])))).1 ∧
    upload_single_audience (load_progress (.jsonOf (.dictWith (some ["US_iOS_Test_App_PIE"])))).1
        ⟨.ok (some "1"), .ok (), false, []⟩ ⟨"US_iOS_Test_App_PIE", none, [], none⟩ true
      = ((true, none), [], ["US_iOS_Test_App_PIE"]) := by
  refine ⟨by decide, ?_⟩
  exact claim_C2 ["US_iOS_Test_App_PIE"] ⟨.ok (some "1"), .ok (), false, []⟩
    ⟨"US_iOS_Test_App_PIE", none, [], none⟩ true (by decide)

/-- Claim C10. -/
theorem claim_C10 :
    (∀ (sha : String → String) (oracle : Nat → Except PyError String) (audience_id : String)
        (users : List User) (schema : Option (List String)) (is_hashed : Bool),
      add_users_to_audience sha oracle audience_id users schema is_hashed
        = .error (.attributeError "BATCH_SIZE")) ∧
    (∀ (sha : String → String) (oracle : Nat → Except PyError String) (audience_id : String)
        (users : List User) (schema : Option (List String)) (is_hashed : Bool)
        (bs : Nat) (res : UploadResult) (trace : List Request),
      add_users_to_audience_batch sha oracle audience_id users schema is_hashed bs
          = .ok (res, trace) →
        res.users_uploaded = users.length) := by
  constructor
  · intro sha oracle audience_id users schema is_hashed
    rfl
  · intro sha oracle audience_id users schema is_hashed bs res trace h
    simp only [add_users_to_audience_batch] at h
    split at h
    · cases h
    · cases h; rfl

/-- Claim C10 witness. -/
theorem claim_C10_witness :
    ∃ res trace,
      add_users_to_audience_batch (fun s => s) (fun _ => .ok "{}") "120210000000"
          [[("madid", "a")], [("madid", "b")], [("madid", "c")]] (some ["MADID"]) false 2
        = .ok (res, trace) ∧ res.users_uploaded = 3 := by
  refine ⟨_, _, rfl, ?_⟩
  exact claim_C10.2 (fun s => s) (fun _ => .ok "{}") "120210000000"
    [[("madid", "a")], [("madid", "b")], [("madid", "c")]] (some ["MADID"]) false 2 _ _ rfl

/-- Claim C4. -/
theorem claim_C4 :
    (add_users_to_audience (fun s => s) (fun _ => .ok "{}") "120210000000"
        [[("email", " Foo@Bar.com ")]] (some ["EMAIL"]) false
      = .error (.attributeError "BATCH_SIZE")) ∧
    (∀ (sha : String → String) (user : User) (schema : List String) (j : Nat),
      j < schema.length →
        (schema.getD j "" = "MADID" →
          (processUser sha schema false user).getD j "" = getDefault user "madid") ∧
        (schema.getD j "" ≠ "MADID" →
          getDefault user (pyLower (schema.getD j "")) ≠ "" →
          (processUser sha schema false user).getD j ""
            = sha (pyStrip (pyLower (getDefault user (pyLower (schema.getD j "")))))))  ∧
    (∀ (sha : String → String) (oracle : Nat → Except PyError String) (audience_id : String)
        (users : List User) (schema : List String) (bs : Nat), 0 < bs →
      ∀ (res : UploadResult) (trace : List Request),
        add_users_to_audience_batch sha oracle audience_id users (some schema) false bs
            = .ok (res, trace) →
          (trace.map Request.data).flatten = users.map (processUser sha schema false)) := by
  refine ⟨rfl, ?_, ?_⟩
  · intro sha user schema j hj
    constructor
    · intro hm
      rw [processUser_getD sha schema false user j hj, hm]
      rw [if_neg (by simp)]
      rfl
    · intro hne hval
      rw [processUser_getD sha schema false user j hj]
      rw [if_pos ⟨hval, rfl, hne⟩]
      rfl
  · intro sha oracle audience_id users schema bs hbs res trace h
    simp only [add_users_to_audience_batch] at h
    split at h
    · cases h
    · rename_i tr hrun
      cases h
      have hmap := runUploadChunks_map_data oracle _
        (fun c => c.map (processUser sha schema false)) (fun i c => rfl)
        (chunksOf bs users) 0 _ hrun
      rw [hmap, ← List.map_flatten, chunksOf_flatten bs hbs users]

/-- Claim C4 witness. -/
theorem claim_C4_witness :
    (processUser (fun s => "sha256(" ++ s ++ ")") ["EMAIL", "MADID"] false
        [("email", " Foo@Bar.com "), ("madid", "AB-12")]).getD 1 "" = "AB-12" ∧
    (processUser (fun s => "sha256(" ++ s ++ ")") ["EMAIL", "MADID"] false
        [("email", " Foo@Bar.com "), ("madid", "AB-12")]).getD 0 "" = "sha256(foo@bar.com)" ∧
    ∃ res trace,
      add_users_to_audience_batch (fun s => "sha256(" ++ s ++ ")") (fun _ => .ok "{}") "aud"
          [[("email", " Foo@Bar.com "), ("madid", "AB-12")]] (some ["EMAIL", "MADID"]) false 500000
        = .ok (res, trace) ∧
      (trace.map Request.data).flatten = [["sha256(foo@bar.com)", "AB-12"]] := by
  refine ⟨?_, ?_, ?_⟩
  · have h := (claim_C4.2.1 (fun s => "sha256(" ++ s ++ ")")
      [("email", " Foo@Bar.com "), ("madid", "AB-12")] ["EMAIL", "MADID"] 1 (by decide)).1 (by decide)
    exact h.trans (by decide)
  · have h := (claim_C4.2.1 (fun s => "sha256(" ++ s ++ ")")
      [("email", " Foo@Bar.com "), ("madid", "AB-12")] ["EMAIL", "MADID"] 0 (by decide)).2
      (by decide) (by decide)
    exact h.trans (by decide)
  · refine ⟨_, _, rfl, ?_⟩
    have h := claim_C4.2.2 (fun s => "sha256(" ++ s ++ ")") (fun _ => .ok "{}") "aud"
      [[("email", " Foo@Bar.com "), ("madid", "AB-12")]] ["EMAIL", "MADID"] 500000 (by decide)
      _ _ rfl
    exact h.trans (by decide)

/-- The inner chunk loop attempts every chunk: it advances the call index by
the number of chunks and appends exactly those call indices to the trace, no
matter which upload calls raise. -/
theorem uploadChunksSeq_snd (upload : Nat → List String → Except String Nat) :
    ∀ (chunks : List (List String)) (idx total : Nat) (trace : List Nat),
      (uploadChunksSeq upload chunks idx total trace).2
        = (idx + chunks.length, trace ++ List.range' idx chunks.length) := by
  intro chunks
  induction chunks with
  | nil => intro idx total trace; simp [uploadChunksSeq]
  | cons c cs ih =>
    intro idx total trace
    simp only [uploadChunksSeq]
    rw [ih]
    simp only [List.length_cons]
    rw [List.range'_succ]
    simp only [Prod.mk.injEq]
    refine ⟨by omega, ?_⟩
    rw [List.append_assoc]
    rfl

/-- Unrolled form of the fold in `uploadAllBatches`: one call per Meta chunk,
sequentially numbered from the initial index. -/
theorem uploadAllBatches_foldl_snd (upload : Nat → List String → Except String Nat)
    (batch_size : Nat) :
    ∀ (batches : List (List String)) (t idx : Nat) (trace : List Nat),
      ((batches.foldl
          (fun acc sf => uploadChunksSeq upload (chunksOf batch_size sf) acc.2.1 acc.1 acc.2.2)
          (t, idx, trace)).2)
        = (idx + (batches.map (fun b => (chunksOf batch_size b).length)).sum,
           trace ++ List.range' idx ((batches.map (fun b => (chunksOf batch_size b).length)).sum)) := by
  intro batches
  induction batches with
  | nil => intro t idx trace; simp
  | cons b bs ih =>
    intro t idx trace
    simp only [List.foldl_cons, List.map_cons, List.sum_cons]
    have h1 := uploadChunksSeq_snd upload (chunksOf batch_size b) idx t trace
    have hr : uploadChunksSeq upload (chunksOf batch_size b) idx t trace
        = ((uploadChunksSeq upload (chunksOf batch_size b) idx t trace).1,
           idx + (chunksOf batch_size b).length,
           trace ++ List.range' idx (chunksOf batch_size b).length) := by
      rw [← h1]
    rw [hr, ih]
    have hcomb : List.range' idx ((chunksOf batch_size b).length) ++
        List.range' (idx + (chunksOf batch_size b).length)
          ((bs.map (fun b => (chunksOf batch_size b).length)).sum)
        = List.range' idx ((chunksOf batch_size b).length +
            (bs.map (fun b => (chunksOf batch_size b).length)).sum) := by
      have := List.range'_append idx ((chunksOf batch_size b).length)
        ((bs.map (fun b => (chunksOf batch_size b).length)).sum) 1
      simp only [Nat.one_mul] at this
      rw [Nat.add_comm ((bs.map (fun b => (chunksOf batch_size b).length)).sum)
        ((chunksOf batch_size b).length)] at this
      exact this
    rw [Prod.mk.injEq]
    refine ⟨by omega, ?_⟩
    rw [List.append_assoc, hcomb]

/-- Whenever the pipeline reaches the upload phase (no skip, records found,
create and fetch succeed, at least one batch), its chunk-call trace is the
full upload loop's trace and its status is decided only by whether anything
was uploaded. -/
theorem pipeline_upload_phase (env : PipeEnv) (app_name os_type : String) (batch_size : Nat)
    (skip_existing : Bool) (aid : String) (batches : List (List String))
    (hskip : (if skip_existing then
        env.listAudiences.map
          (fun l => l.lookup (OptimizedEtlPipeline.create_correct_audience_name app_name os_type))
      else .ok none) = .ok none)
    (hcount : env.maid_count ≠ 0) (hcreate : env.create = .ok aid)
    (hfetch : env.fetch = .ok batches) (hne : batches ≠ []) :
    (upload_app_audience_optimized env app_name os_type batch_size skip_existing).2
        = (uploadAllBatches env.upload batch_size batches).2.2 ∧
    ((upload_app_audience_optimized env app_name os_type batch_size skip_existing).1.status
        = "success" ∨
     (upload_app_audience_optimized env app_name os_type batch_size skip_existing).1.status
        = "upload_failed") := by
  have hie : batches.isEmpty = false := by
    cases batches with
    | nil => exact absurd rfl hne
    | cons x xs => rfl
  by_cases hz : (uploadAllBatches env.upload batch_size batches).1 ≠ 0 <;>
    simp [upload_app_audience_optimized, hskip, hcreate, hfetch, hcount, hie, hz]

/-- Claim C5. -/
theorem claim_C5 (env : PipeEnv) (app_name os_type : String) (batch_size : Nat)
    (skip_existing : Bool) (aid : String) (batches : List (List String))
    (hskip : (if skip_existing then
        env.listAudiences.map
          (fun l => l.lookup (OptimizedEtlPipeline.create_correct_audience_name app_name os_type))
      else .ok none) = .ok none)
    (hcount : env.maid_count ≠ 0) (hcreate : env.create = .ok aid)
    (hfetch : env.fetch = .ok batches) (hne : batches ≠ []) :
    (make_request (fun _ => .connFail)).result
        = .error (.valueError "requests.exceptions.ConnectionError") ∧
    (make_request (fun _ => .connFail)).sleeps
        = [Config.RETRY_DELAY * 2 ^ 0, Config.RETRY_DELAY * 2 ^ 1] ∧
    (make_request (fun _ => .httpResp 503 none "{}")).result
        = .error (.valueError "requests.exceptions.HTTPError") ∧
    (make_request (fun _ => .httpResp 503 none "{}")).sleeps
        = [Config.RETRY_DELAY * 2 ^ 0, Config.RETRY_DELAY * 2 ^ 1] ∧
    (upload_app_audience_optimized env app_name os_type batch_size skip_existing).2
        = List.range ((batches.map (fun b => (chunksOf batch_size b).length)).sum) ∧
    (upload_app_audience_optimized env app_name os_type batch_size skip_existing).1.status
        ≠ "error" := by
  have hp := pipeline_upload_phase env app_name os_type batch_size skip_existing aid batches
    hskip hcount hcreate hfetch hne
  refine ⟨by decide, by decide, by decide, by decide, ?_, ?_⟩
  · rw [hp.1]
    unfold uploadAllBatches
    rw [uploadAllBatches_foldl_snd]
    simp [List.range_eq_range']
  · rcases hp.2 with h | h <;> rw [h] <;> decide

/-- Claim C5 witness. -/
theorem claim_C5_witness :
    (upload_app_audience_optimized
        ⟨.ok [], 3, .ok "aud9", .ok [["a", "b", "c"]],
          fun i _ => if i = 0 then .error "boom" else .ok 1⟩
        "Test App" "iOS" 2 true).2 = [0, 1] ∧
    (upload_app_audience_optimized
        ⟨.ok [], 3, .ok "aud9", .ok [["a", "b", "c"]],
          fun i _ => if i = 0 then .error "boom" else .ok 1⟩
        "Test App" "iOS" 2 true).1.status ≠ "error" := by
  have h := claim_C5
    ⟨.ok [], 3, .ok "aud9", .ok [["a", "b", "c"]],
      fun i _ => if i = 0 then .error "boom" else .ok 1⟩
    "Test App" "iOS" 2 true "aud9" [["a", "b", "c"]] rfl (by decide) rfl rfl (by simp)
  exact ⟨h.2.2.2.2.1.trans (by decide), h.2.2.2.2.2⟩

/-- Claim C3 counterexample. -/
theorem claim_C3_counterexample :
    (upload_app_audience_optimized
        ⟨.ok [], 20000001, .ok "120212345", .error "snowflake timeout", fun _ _ => .ok 0⟩
        "BigApp" "iOS" 100000 true).1.status = "skipped" ∧
    (upload_app_audience_optimized
        ⟨.ok [], 20000001, .ok "120212345", .error "snowflake timeout", fun _ _ => .ok 0⟩
        "BigApp" "iOS" 100000 true).1.status ≠ "partial" ∧
    (upload_app_audience_optimized
        ⟨.ok [], 20000001, .ok "120212345", .error "snowflake timeout", fun _ _ => .ok 0⟩
        "BigApp" "iOS" 100000 true).1.reason = some "Too large to fetch (20,000,001 MAIDs)" := by
  refine ⟨by decide, by decide, by decide⟩

/-- Claim C3 amended. -/
theorem claim_C3 (env : PipeEnv) (app_name os_type : String) (batch_size : Nat)
    (skip_existing : Bool) (aid : String) (e : String)
    (hskip : (if skip_existing then
        env.listAudiences.map
          (fun l => l.lookup (OptimizedEtlPipeline.create_correct_audience_name app_name os_type))
      else .ok none) = .ok none)
    (hbig : 20000000 < env.maid_count)
    (hcreate : env.create = .ok aid)
    (hfetch : env.fetch = .error e) :
    (upload_app_audience_optimized env app_name os_type batch_size skip_existing).1
      = { status := "skipped",
          reason := some ("Too large to fetch (" ++ commaFmt env.maid_count ++ " MAIDs)"),
          error := some e, audience_id := some aid, maid_count := some env.maid_count } ∧
    (upload_app_audience_optimized env app_name os_type batch_size skip_existing).2 = [] := by
  have hcount : ¬ env.maid_count = 0 := by omega
  simp [upload_app_audience_optimized, hskip, hcreate, hfetch, hcount, hbig]

/-- Claim C3 witness. -/
theorem claim_C3_witness :
    (upload_app_audience_optimized
        ⟨.ok [], 20000001, .ok "120212399", .error "ReadTimeout", fun _ _ => .ok 0⟩
        "Big App Two" "Android" 100000 true).1
      = { status := "skipped", reason := some "Too large to fetch (20,000,001 MAIDs)",
          error := some "ReadTimeout", audience_id := some "120212399",
          maid_count := some 20000001 } := by
  have h := claim_C3
    ⟨.ok [], 20000001, .ok "120212399", .error "ReadTimeout", fun _ _ => .ok 0⟩
    "Big App Two" "Android" 100000 true "120212399" "ReadTimeout" rfl (by decide) rfl rfl
  exact h.1.trans (by decide)

/-- A `limits` pass whose window has expired resets the window and admits. -/
theorem limits_call_expired (calls period t : Nat) (s : RLState) (hc : 1 ≤ calls)
    (h : (period : Int) - ((t : Int) - (s.last_reset : Int)) ≤ 0) :
    limits_call calls period t s = (⟨t, 1⟩, none) := by
  simp only [limits_call]
  rw [if_pos h]
  rw [if_neg (by show ¬ calls < 0 + 1; omega)]

/-- A `limits` pass inside the window that exceeds the ceiling raises
`RateLimitException` with the remaining window time. -/
theorem limits_call_raise (calls period t : Nat) (s : RLState)
    (h : ¬ (period : Int) - ((t : Int) - (s.last_reset : Int)) ≤ 0)
    (hover : calls < s.num_calls + 1) :
    limits_call calls period t s =
      ({ s with num_calls := s.num_calls + 1 },
        some ((period : Int) - ((t : Int) - (s.last_reset : Int)))) := by
  simp only [limits_call]
  rw [if_neg h]
  rw [if_pos hover]

/-- A `limits` pass inside the window and under the ceiling admits. -/
theorem limits_call_under (calls period t : Nat) (s : RLState)
    (h : ¬ (period : Int) - ((t : Int) - (s.last_reset : Int)) ≤ 0)
    (hok : ¬ calls < s.num_calls + 1) :
    limits_call calls period t s = ({ s with num_calls := s.num_calls + 1 }, none) := by
  simp only [limits_call]
  rw [if_neg h]
  rw [if_neg hok]

/-- Claim C6 amended. -/
theorem claim_C6 (calls period t fuel : Nat) (s : RLState)
    (hc : 1 ≤ calls) (hl : s.last_reset ≤ t) (hf : 2 ≤ fuel) :
    ∃ ta s', sleep_and_retry_call calls period fuel t s = some (ta, s') ∧
      t ≤ ta ∧ ta ≤ t + period := by
  obtain ⟨f, rfl⟩ : ∃ f, fuel = f + 2 := ⟨fuel - 2, by omega⟩
  by_cases hpr : (period : Int) - ((t : Int) - (s.last_reset : Int)) ≤ 0
  · refine ⟨t, ⟨t, 1⟩, ?_, le_rfl, by omega⟩
    simp only [sleep_and_retry_call, limits_call_expired calls period t s hc hpr]
  · by_cases hover : calls < s.num_calls + 1
    · refine ⟨t + ((period : Int) - ((t : Int) - (s.last_reset : Int))).toNat,
        ⟨t + ((period : Int) - ((t : Int) - (s.last_reset : Int))).toNat, 1⟩, ?_, by omega, by omega⟩
      simp only [sleep_and_retry_call, limits_call_raise calls period t s hpr hover]
      have hexp : (period : Int) -
          ((↑(t + ((period : Int) - ((t : Int) - (s.last_reset : Int))).toNat) : Int)
            - (s.last_reset : Int)) ≤ 0 := by omega
      simp only [sleep_and_retry_call,
        limits_call_expired calls period _ { s with num_calls := s.num_calls + 1 } hc hexp]
    · refine ⟨t, { s with num_calls := s.num_calls + 1 }, ?_, le_rfl, by omega⟩
      simp only [sleep_and_retry_call, limits_call_under calls period t s hpr hover]

/-- Claim C6 witness. -/
theorem claim_C6_witness :
    ∃ ta s', sleep_and_retry_call Config.API_CALLS_PER_HOUR 3600 2 3599 ⟨0, 200⟩
        = some (ta, s') ∧ 3599 ≤ ta ∧ ta ≤ 3599 + 3600 := by
  exact claim_C6 Config.API_CALLS_PER_HOUR 3600 3599 2 ⟨0, 200⟩ (by decide) (by decide) (by decide)

/-- During a burst at time 3599 with the window anchored at 0, each of the
first 200 calls is admitted immediately and only bumps the counter. -/
theorem burst_admits_all (k : Nat) :
    ∀ (j c : Nat) (acc : List (Option Nat)), c ≤ 3599 → j + k ≤ 200 →
      (List.replicate k 3599).foldl
        (fun (acc : Nat × RLState × List (Option Nat)) a =>
          let t0 := max acc.1 a
          match sleep_and_retry_call 200 3600 2 t0 acc.2.1 with
          | some (ta, s') => (ta, s', acc.2.2 ++ [some ta])
          | none => (t0, acc.2.1, acc.2.2 ++ [none]))
        (c, ⟨0, j⟩, acc)
      = (if k = 0 then c else 3599, ⟨0, j + k⟩, acc ++ List.replicate k (some 3599)) := by
  induction k with
  | zero => intro j c acc hc hj; simp
  | succ k ih =>
    intro j c acc hc hj
    rw [List.replicate_succ, List.foldl_cons]
    have hstep : sleep_and_retry_call 200 3600 2 (max c 3599) (⟨0, j⟩ : RLState)
        = some (3599, ⟨0, j + 1⟩) := by
      have hmax : max c 3599 = 3599 := Nat.max_eq_right hc
      rw [hmax]
      simp only [sleep_and_retry_call]
      rw [limits_call_under 200 3600 3599 ⟨0, j⟩
        (by show ¬ (3600 : Int) - ((3599 : Int) - ((0 : Nat) : Int)) ≤ 0; decide)
        (by show ¬ 200 < j + 1; omega)]
    simp only [hstep]
    rw [ih (j + 1) 3599 (acc ++ [some 3599]) le_rfl (by omega)]
    simp only [ite_self, List.append_assoc, List.singleton_append]
    rw [if_neg (Nat.succ_ne_zero k), ← List.replicate_succ]
    rw [Prod.mk.injEq, Prod.mk.injEq, RLState.mk.injEq]
    exact ⟨rfl, ⟨rfl, by omega⟩, rfl⟩

/-- Counting a predicate that holds on the replicated element. -/
theorem countP_replicate_pos {α : Type} (p : α → Bool) (a : α) (h : p a = true) :
    ∀ n, (List.replicate n a).countP p = n := by
  intro n
  induction n with
  | zero => rfl
  | succ n ih => rw [List.replicate_succ, List.countP_cons_of_pos _ _ h, ih]

/-- Claim C6 counterexample. -/
theorem claim_C6_counterexample :
    run_burst Config.API_CALLS_PER_HOUR 3600 (List.replicate 200 3599 ++ [3599])
      = List.replicate 200 (some 3599) ++ [some 3600] ∧
    rollingCount 3600 (List.replicate 200 (some 3599)) 3600 = 200 ∧
    ¬ rollingCount 3600 (List.replicate 200 (some 3599)) 3600 < Config.API_CALLS_PER_HOUR := by
  have hC : Config.API_CALLS_PER_HOUR = 200 := rfl
  refine ⟨?_, ?_, ?_⟩
  · unfold run_burst
    rw [hC, List.foldl_append]
    rw [burst_admits_all 200 0 0 [] (by omega) (by omega)]
    have hlast : sleep_and_retry_call 200 3600 2 (max 3599 3599) (⟨0, 200⟩ : RLState)
        = some (3600, ⟨3600, 1⟩) := by decide
    simp only [List.foldl_cons, List.foldl_nil, if_neg (by omega : ¬ (200 = 0)), hlast,
      List.nil_append]
  · exact countP_replicate_pos _ _ (by decide) 200
  · have h2 : rollingCount 3600 (List.replicate 200 (some 3599)) 3600 = 200 :=
      countP_replicate_pos _ _ (by decide) 200
    rw [h2, hC]
    omega

end AutoUploadMeta
